import Mathlib

/-!
Verification development for the browser-pool scraping and ingestion server
(`web-dj`).  The JavaScript server is shallowly embedded: pure fragments become
Lean functions, stateful fragments become explicit state passing, external
capabilities (network fetch, object-storage upload, browser automation) become
oracle parameters, and JavaScript `null`/`undefined` become `Option`.
-/

/-! ## JavaScript string split / join

`saveComicToDB` stores the image URL list as `validUrls.join(',')` and
`getComicFromDB` reads it back with `image_url.split(',')`.  We model the
JavaScript `String.prototype.split` (single-character separator, which never
returns an empty array: `"".split(",") = [""]`) and `Array.prototype.join`
at the character-list level. -/

/-- JavaScript `s.split(sep)` on the character list of `s` (string separator of
length one, no limit).  Always returns a non-empty list of fragments. -/
def jsSplitAux (sep : Char) : List Char → List (List Char)
  | [] => [[]]
  | c :: rest =>
    let r := jsSplitAux sep rest
    if c = sep then [] :: r
    else (c :: r.headD []) :: r.tail

/-- JavaScript `parts.join(sep)` on character lists. -/
def jsJoinAux (sep : Char) : List (List Char) → List Char
  | [] => []
  | [s] => s
  | s :: rest => s ++ sep :: jsJoinAux sep rest

/-- String-level wrapper for `split(',')`-style calls. -/
def jsSplit (sep : Char) (s : String) : List String :=
  (jsSplitAux sep s.data).map String.mk

/-- String-level wrapper for `join(',')`-style calls. -/
def jsJoin (sep : Char) (l : List String) : String :=
  String.mk (jsJoinAux sep (l.map String.data))

theorem jsSplitAux_ne_nil (sep : Char) (s : List Char) : jsSplitAux sep s ≠ [] := by
  cases s with
  | nil => simp [jsSplitAux]
  | cons c rest =>
    simp only [jsSplitAux]
    split <;> simp

theorem jsSplitAux_nosep (sep : Char) (s : List Char) (h : ∀ c ∈ s, c ≠ sep) :
    jsSplitAux sep s = [s] := by
  induction s with
  | nil => rfl
  | cons c rest ih =>
    have hc : c ≠ sep := h c (List.mem_cons_self c rest)
    have hrest : ∀ x ∈ rest, x ≠ sep := fun x hx => h x (List.mem_cons_of_mem c hx)
    simp [jsSplitAux, ih hrest, hc]

theorem jsSplitAux_append (sep : Char) (s t : List Char) (h : ∀ c ∈ s, c ≠ sep) :
    jsSplitAux sep (s ++ sep :: t) = s :: jsSplitAux sep t := by
  induction s with
  | nil =>
    simp [jsSplitAux]
  | cons c rest ih =>
    have hc : c ≠ sep := h c (List.mem_cons_self c rest)
    have hrest : ∀ x ∈ rest, x ≠ sep := fun x hx => h x (List.mem_cons_of_mem c hx)
    simp [jsSplitAux, ih hrest, hc]

theorem jsSplitAux_jsJoinAux (sep : Char) :
    ∀ l : List (List Char), l ≠ [] → (∀ s ∈ l, ∀ c ∈ s, c ≠ sep) →
      jsSplitAux sep (jsJoinAux sep l) = l
  | [], h, _ => absurd rfl h
  | [s], _, h => by
    simpa [jsJoinAux] using jsSplitAux_nosep sep s (h s (by simp))
  | s :: s' :: rest, _, h => by
    have hs : ∀ c ∈ s, c ≠ sep := h s (by simp)
    have htail : ∀ x ∈ s' :: rest, ∀ c ∈ x, c ≠ sep := by
      intro x hx
      exact h x (List.mem_cons_of_mem s hx)
    have ih := jsSplitAux_jsJoinAux sep (s' :: rest) (by simp) htail
    calc jsSplitAux sep (jsJoinAux sep (s :: s' :: rest))
        = jsSplitAux sep (s ++ sep :: jsJoinAux sep (s' :: rest)) := rfl
      _ = s :: jsSplitAux sep (jsJoinAux sep (s' :: rest)) := jsSplitAux_append sep _ _ hs
      _ = s :: s' :: rest := by rw [ih]

theorem stringMkData (s : String) : String.mk s.data = s := rfl

theorem jsJoinAux_ne_nil (sep : Char) :
    ∀ l : List (List Char), l ≠ [] → (∀ s ∈ l, s ≠ []) → jsJoinAux sep l ≠ []
  | [], h, _ => absurd rfl h
  | [s], _, h => by simpa [jsJoinAux] using h s (by simp)
  | s :: s' :: rest, _, h => by
    have hs : s ≠ [] := h s (by simp)
    cases s with
    | nil => exact absurd rfl hs
    | cons c cs => simp [jsJoinAux]

/-- Round trip at the `String` level: splitting a comma-join recovers the list,
provided every element is non-empty and comma-free. -/
theorem jsSplit_jsJoin (l : List String) (hne : l ≠ [])
    (h : ∀ u ∈ l, u ≠ "" ∧ ',' ∉ u.data) :
    jsSplit ',' (jsJoin ',' l) = l := by
  have hmap : l.map String.data ≠ [] := by
    intro hx
    exact hne (List.map_eq_nil_iff.mp hx)
  have hsep : ∀ s ∈ l.map String.data, ∀ c ∈ s, c ≠ ',' := by
    intro s hs c hc
    rcases List.mem_map.mp hs with ⟨u, hu, rfl⟩
    intro hceq
    exact (h u hu).2 (hceq ▸ hc)
  unfold jsSplit jsJoin
  rw [show (String.mk (jsJoinAux ',' (l.map String.data))).data
        = jsJoinAux ',' (l.map String.data) from rfl]
  rw [jsSplitAux_jsJoinAux ',' (l.map String.data) hmap hsep]
  rw [List.map_map]
  have : (String.mk ∘ String.data) = (id : String → String) := by
    funext u
    rfl
  rw [this, List.map_id]

/-! ## Association stores

Both the `comics` / `thumbnails` SQL tables (keyed by `slug` / `filename`,
written with `ON CONFLICT ... DO UPDATE`) and the in-memory `NodeCache`
(`cache.get` / `cache.set`) are modelled as association lists with
lookup / upsert. -/

/-- Keyed lookup (first match), modelling `SELECT ... WHERE key = $k` and
`cache.get(key)`. -/
def dbLookup {α : Type} (db : List (String × α)) (key : String) : Option α :=
  match db with
  | [] => none
  | (k, v) :: rest => if k = key then some v else dbLookup rest key

/-- Keyed upsert, modelling `INSERT ... ON CONFLICT DO UPDATE` and
`cache.set(key, value)`. -/
def dbUpsert {α : Type} (db : List (String × α)) (key : String) (v : α) :
    List (String × α) :=
  match db with
  | [] => [(key, v)]
  | (k, w) :: rest => if k = key then (key, v) :: rest else (k, w) :: dbUpsert rest key v

theorem dbLookup_dbUpsert_self {α : Type} (db : List (String × α)) (key : String) (v : α) :
    dbLookup (dbUpsert db key v) key = some v := by
  induction db with
  | nil => simp [dbLookup, dbUpsert]
  | cons p rest ih =>
    obtain ⟨k, w⟩ := p
    by_cases hk : k = key
    · simp [dbUpsert, dbLookup, hk]
    · simp [dbUpsert, dbLookup, hk, ih]

/-! ## Comics table: `getComicFromDB` / `saveComicToDB` -/

/-- A row of the `comics` table: `slug` is the association key; the row stores
the canonical source URL, the comma-joined CDN image URL list and the count. -/
structure ComicRow where
  url : String
  image_url : String
  total_images : Nat
deriving DecidableEq, Repr

/-- The `comics` table. -/
def ComicDB : Type := List (String × ComicRow)

/-- `getComicFromDB(slug)`: `SELECT image_url FROM comics WHERE slug = ...`;
if a row exists and its `image_url` is truthy (non-empty string), return
`image_url.split(',')`, else `null`.  Database errors and the retry wrapper
around them are outside the model (the store is an opaque capability). -/
def getComicFromDB (db : ComicDB) (slug : String) : Option (List String) :=
  match dbLookup db slug with
  | some row => if row.image_url ≠ "" then some (jsSplit ',' row.image_url) else none
  | none => none

/-- `saveComicToDB(slug, fullUrl, imageUrls)`: rejects an empty array, filters
out `null`/`undefined` entries (modelled as `none`), rejects the result if
nothing valid remains, otherwise upserts the row keyed by slug with
`validUrls.join(',')` and `validUrls.length`.  Returns the written table and
the boolean result of the JavaScript function. -/
def saveComicToDB (db : ComicDB) (slug fullUrl : String)
    (imageUrls : List (Option String)) : ComicDB × Bool :=
  if imageUrls.isEmpty then (db, false)
  else
    let validUrls := imageUrls.filterMap id
    if validUrls.isEmpty then (db, false)
    else (dbUpsert db slug ⟨fullUrl, jsJoin ',' validUrls, validUrls.length⟩, true)

theorem filterMap_id_map_some {α : Type} (l : List α) :
    (l.map some).filterMap id = l := by
  induction l with
  | nil => rfl
  | cons a as ih => simp [ih]

/-! ## `fetchImageBuffer`: byte fetch with 20s deadline and exponential backoff

The network fetch is an oracle `att : Nat → Option Nat` giving, for each
`retryCount`, the fetched buffer (`some`) or a failure (`none`; a thrown
network error and a non-2xx response both land in the same `catch`).  The
model records the attempt count, the backoff sleeps, and for each
`createTimeout` handle whether `clearTimeout` ran before the call exited
(the `catch` clears it on failure paths and the `finally` clears it on every
path). -/

/-- Observable trace of one `fetchImageBuffer(url, referer, retryCount)` call,
including its recursive retries. -/
structure FetchTrace where
  result : Option Nat
  attempts : Nat
  sleepsMs : List Nat
  timersCleared : List Bool
deriving DecidableEq, Repr

/-- `fetchImageBuffer`: try the fetch; on failure, if `retryCount < 3`, sleep
`1000 * 2 ^ retryCount` ms and recurse with `retryCount + 1`, else propagate
the failure.  Each level creates one timeout handle and clears it on every
exit path. -/
def fetchImageBuffer (att : Nat → Option Nat) (retryCount : Nat) : FetchTrace :=
  match att retryCount with
  | some buf => ⟨some buf, 1, [], [true]⟩
  | none =>
    if h : retryCount < 3 then
      let rest := fetchImageBuffer att (retryCount + 1)
      ⟨rest.result, rest.attempts + 1, 1000 * 2 ^ retryCount :: rest.sleepsMs,
        true :: rest.timersCleared⟩
    else ⟨none, 1, [], [true]⟩
termination_by 4 - retryCount
decreasing_by omega

theorem fetchImageBuffer_timers_cleared (att : Nat → Option Nat) :
    ∀ fuel retryCount, 4 - retryCount ≤ fuel →
      ∀ b ∈ (fetchImageBuffer att retryCount).timersCleared, b = true := by
  intro fuel
  induction fuel with
  | zero =>
    intro r hr b hb
    have hr4 : 4 ≤ r := by omega
    rw [fetchImageBuffer] at hb
    cases hatt : att r with
    | some buf => rw [hatt] at hb; simp at hb; exact hb
    | none =>
      rw [hatt] at hb
      have : ¬ r < 3 := by omega
      simp [this] at hb
      exact hb
  | succ n ih =>
    intro r hr b hb
    rw [fetchImageBuffer] at hb
    cases hatt : att r with
    | some buf => rw [hatt] at hb; simp at hb; exact hb
    | none =>
      rw [hatt] at hb
      by_cases h3 : r < 3
      · simp [h3] at hb
        rcases hb with hb | hb
        · exact hb
        · exact ih (r + 1) (by omega) b hb
      · simp [h3] at hb
        exact hb

/-! ## Browser pool: `initBrowserPool` / `getBrowser` / `releaseBrowser` and
the hourly recycle

The pool is the mutable triple (`browserPool` length, sessions checked out,
`isPoolInitialized`).  Pool operations are modelled as atomic events folded
over a trace:

* `init ok` — `initBrowserPool`: no-op when already initialized; otherwise
  launches `POOL_SIZE` sessions of which `ok` succeed and are pushed.
* `acquire` — `getBrowser`: pops a session when the pool is non-empty,
  otherwise keeps polling (no state change).
* `release` — `releaseBrowser`: pushes the session back when the pool is
  below `POOL_SIZE`, otherwise closes it.
* `recycleReset` — the hourly `setInterval` body: closes the idle sessions,
  empties the pool and clears `isPoolInitialized` (checked-out sessions are
  unaffected); a subsequent `init` refills the pool. -/

inductive PoolEvent where
  | init (ok : Nat)
  | acquire
  | release
  | recycleReset
deriving DecidableEq, Repr

structure PoolState where
  idle : Nat
  checkedOut : Nat
  initialized : Bool
deriving DecidableEq, Repr

def poolStep (P : Nat) (s : PoolState) : PoolEvent → PoolState
  | .init ok => if s.initialized then s else ⟨s.idle + ok, s.checkedOut, true⟩
  | .acquire =>
    if s.idle > 0 then ⟨s.idle - 1, s.checkedOut + 1, s.initialized⟩ else s
  | .release =>
    if s.checkedOut = 0 then s
    else if s.idle < P then ⟨s.idle + 1, s.checkedOut - 1, s.initialized⟩
    else ⟨s.idle, s.checkedOut - 1, s.initialized⟩
  | .recycleReset => ⟨0, s.checkedOut, false⟩

/-- Run a trace of pool events from the process-start state (empty pool,
nothing checked out, not initialized). -/
def poolRun (P : Nat) (events : List PoolEvent) : PoolState :=
  events.foldl (poolStep P) ⟨0, 0, false⟩

/-- Pool invariant away from recycles: the live sessions are bounded by the
capacity, and an uninitialized pool is empty with nothing checked out. -/
def PoolInv (P : Nat) (s : PoolState) : Prop :=
  s.idle + s.checkedOut ≤ P ∧ (s.initialized = false → s.idle = 0 ∧ s.checkedOut = 0)

theorem poolStep_preserves_inv (P : Nat) (s : PoolState) (e : PoolEvent)
    (hs : PoolInv P s) (hinit : ∀ k, e = .init k → k ≤ P) (hnr : e ≠ .recycleReset) :
    PoolInv P (poolStep P s e) := by
  obtain ⟨i, c, b⟩ := s
  obtain ⟨hsum, huninit⟩ := hs
  simp only at hsum
  cases e with
  | init k =>
    have hk : k ≤ P := hinit k rfl
    cases b with
    | true => simpa [poolStep, PoolInv] using hsum
    | false =>
      have h0 := huninit rfl
      simp only at h0
      simp [poolStep, PoolInv]
      omega
  | acquire =>
    cases b with
    | true =>
      by_cases hpos : i > 0
      · simp [poolStep, hpos, PoolInv]
        omega
      · simp [poolStep, hpos, PoolInv]
        exact hsum
    | false =>
      have h0 := huninit rfl
      simp only at h0
      simp [poolStep, PoolInv, h0.1, h0.2]
  | release =>
    cases b with
    | true =>
      by_cases hco : c = 0
      · simp [poolStep, hco, PoolInv]
        omega
      · by_cases hlt : i < P
        · simp [poolStep, hco, hlt, PoolInv]
          omega
        · simp [poolStep, hco, hlt, PoolInv]
          omega
    | false =>
      have h0 := huninit rfl
      simp only at h0
      simp [poolStep, PoolInv, h0.1, h0.2]
  | recycleReset => exact absurd rfl hnr

theorem poolFold_inv (P : Nat) :
    ∀ (events : List PoolEvent) (s : PoolState), PoolInv P s →
      (∀ k, PoolEvent.init k ∈ events → k ≤ P) →
      PoolEvent.recycleReset ∉ events →
      PoolInv P (events.foldl (poolStep P) s) := by
  intro events
  induction events with
  | nil => intro s hs _ _; exact hs
  | cons e rest ih =>
    intro s hs hinit hnr
    have he : e ≠ PoolEvent.recycleReset := by
      intro h
      exact hnr (by simp [h])
    have hek : ∀ k, e = PoolEvent.init k → k ≤ P := by
      intro k hk
      exact hinit k (by simp [hk])
    have hstep := poolStep_preserves_inv P s e hs hek he
    exact ih (poolStep P s e) hstep
      (fun k hk => hinit k (List.mem_cons_of_mem e hk))
      (fun h => hnr (List.mem_cons_of_mem e h))

/-! ## `/get-comic`: ingestion pipeline and route

The scrape itself (browser navigation, `#anu img` extraction) is external; the
route model takes the extracted absolute image URL list as input.  The upload
of one image (fetch bytes + `uploadToR2`) is an oracle
`att index attempt : Option String` returning the CDN URL on success. -/

/-- Split a list into consecutive slices of `n` elements (`n > 0`), as the
`for (let i = 0; i < xs.length; i += n) xs.slice(i, i + n)` loops do.  The
`fuel` argument (instantiated with the list length, an upper bound on the
chunk count) only makes the recursion structural. -/
def chunksOfGo {α : Type} (n : Nat) : Nat → List α → List (List α)
  | 0, _ => []
  | _, [] => []
  | fuel + 1, x :: xs => (x :: xs.take (n - 1)) :: chunksOfGo n fuel (xs.drop (n - 1))

def chunksOf {α : Type} (n : Nat) (l : List α) : List (List α) :=
  chunksOfGo n l.length l

/-- Per-image upload loop of the `/get-comic` route: `while (retries <=
maxRetries)` with `maxRetries = 2`, unrolled — the image is tried at
`retries = 0, 1, 2`; a failed try increments `retries`, waits, and retries;
after the third failure the image resolves to `null`. -/
def uploadWithRetry (att : Nat → Option String) : Option String :=
  match att 0 with
  | some u => some u
  | none =>
    match att 1 with
    | some u => some u
    | none => att 2

/-- Upload batches: `imageUrls` sliced in threes, the slice at offset `base`
processed concurrently (`Promise.all` preserves slice order), non-`null`
results appended to `uploadedUrls`. -/
def ingestUploadsGo (att : Nat → Nat → Option String) :
    List (List String) → Nat → List String
  | [], _ => []
  | chunk :: rest, base =>
    (chunk.enum.map (fun p => uploadWithRetry (att (base + p.1)))).filterMap id
      ++ ingestUploadsGo att rest (base + 3)

/-- The ordered list of successfully uploaded CDN URLs of a `/get-comic`
scrape: batch order, then index order within a batch. -/
def ingestUploads (imageUrls : List String) (att : Nat → Nat → Option String) :
    List String :=
  ingestUploadsGo att (chunksOf 3 imageUrls) 0

/-- The JSON response of `/get-comic` (`warning` is `undefined`, hence absent
from the serialized JSON, when it is `none`). -/
structure ComicResponse where
  success : Bool
  images : List String
  cached : Bool
  source : String
  warning : Option String
deriving DecidableEq, Repr

/-- The in-memory `NodeCache` for `/get-comic` responses (an entry being
present models it being within its TTL). -/
def CacheStore : Type := List (String × ComicResponse)

/-- Base URL of the scraped site. -/
def urlBase : String := "https://doujindesu.tv/"

/-- Steps 4-5 of the `/get-comic` route: upload all extracted images in
batches of 3, persist via `saveComicToDB` only when at least one upload
succeeded, build the response (`warning` set exactly when some image failed),
and write the response into the memory cache. -/
def getComicIngest (db : ComicDB) (cache : CacheStore) (slug fullUrl : String)
    (imageUrls : List String) (att : Nat → Nat → Option String) :
    ComicDB × CacheStore × ComicResponse :=
  let uploadedUrls := ingestUploads imageUrls att
  let db2 := if uploadedUrls.length > 0
    then (saveComicToDB db slug fullUrl (uploadedUrls.map some)).1
    else db
  let response : ComicResponse :=
    ⟨true, uploadedUrls, false, "freshly scraped",
      if uploadedUrls.length ≠ imageUrls.length
        then some "Beberapa gambar gagal diupload" else none⟩
  (db2, dbUpsert cache ("comic-" ++ slug) response, response)

/-- Steps 2-5 of the `/get-comic` route, reached when the database has no
row for the slug: check the memory cache (`cache.get` hit is returned as-is),
else scrape fresh and ingest. -/
def getComicFreshPath (db : ComicDB) (cache : CacheStore) (slug : String)
    (imageUrls : List String) (att : Nat → Nat → Option String) :
    ComicDB × CacheStore × ComicResponse :=
  match dbLookup cache ("comic-" ++ slug) with
  | some cachedResponse => (db, cache, cachedResponse)
  | none => getComicIngest db cache slug (urlBase ++ slug ++ "/") imageUrls att

/-- The `/get-comic` route: database first (`cached:true, source:'database'`
on a hit), then memory cache, then fresh scrape + ingestion. -/
def getComicRoute (db : ComicDB) (cache : CacheStore) (slug : String)
    (imageUrls : List String) (att : Nat → Nat → Option String) :
    ComicDB × CacheStore × ComicResponse :=
  match getComicFromDB db slug with
  | some dbImages =>
    if dbImages.length > 0 then (db, cache, ⟨true, dbImages, true, "database", none⟩)
    else getComicFreshPath db cache slug imageUrls att
  | none => getComicFreshPath db cache slug imageUrls att

/-! ## Batch locks: `/auto-fetch`, `/auto-json`, `/auto-thumbnail`

`/auto-fetch` and `/auto-json` share the module-level flag
`autoFetchInProgress` (+ `currentAutoFetchOperation`); `/auto-thumbnail` has
its own pair `autoThumbnailInProgress` / `currentThumbnailOperation`.  Each
route's prologue rejects with HTTP 429 when its own flag is set, else sets
the flag and records the operation metadata. -/

/-- Metadata of an in-flight batch operation (`file`/`query` plus
`startedAt = Date.now()`). -/
structure BatchOp where
  desc : String
  startedAt : Nat
deriving DecidableEq, Repr

/-- The module-level lock state. -/
structure LockState where
  autoFetchInProgress : Bool
  currentAutoFetchOperation : Option BatchOp
  autoThumbnailInProgress : Bool
  currentThumbnailOperation : Option BatchOp
deriving DecidableEq, Repr

/-- Body of the 429 rejection: the in-flight operation's start time (via
optional chaining) and `elapsedSeconds = floor((now - startedAt) / 1000)`
(0 when the metadata is missing). -/
structure Reject429 where
  startedAt : Option Nat
  elapsedSeconds : Nat
deriving DecidableEq, Repr

def rejectInfo (now : Nat) (cur : Option BatchOp) : Reject429 :=
  ⟨cur.map (·.startedAt),
    match cur with
    | some op => (now - op.startedAt) / 1000
    | none => 0⟩

/-- Prologue of `/auto-fetch`: 429 when `autoFetchInProgress`, else take the
lock. -/
def startAutoFetch (s : LockState) (now : Nat) (op : BatchOp) :
    LockState × Option Reject429 :=
  if s.autoFetchInProgress then (s, some (rejectInfo now s.currentAutoFetchOperation))
  else ({ s with autoFetchInProgress := true, currentAutoFetchOperation := some op }, none)

/-- Prologue of `/auto-json`: same check on the same `autoFetchInProgress`
flag. -/
def startAutoJson (s : LockState) (now : Nat) (op : BatchOp) :
    LockState × Option Reject429 :=
  if s.autoFetchInProgress then (s, some (rejectInfo now s.currentAutoFetchOperation))
  else ({ s with autoFetchInProgress := true, currentAutoFetchOperation := some op }, none)

/-- Prologue of `/auto-thumbnail`: checks only `autoThumbnailInProgress`. -/
def startAutoThumbnail (s : LockState) (now : Nat) (op : BatchOp) :
    LockState × Option Reject429 :=
  if s.autoThumbnailInProgress then (s, some (rejectInfo now s.currentThumbnailOperation))
  else ({ s with autoThumbnailInProgress := true, currentThumbnailOperation := some op }, none)

/-! ## `/auto-json`: manifest-driven orchestrator (`processChapters`)

A chapter's processing (fetching `/get-comic` with retry-on-transient-error)
is summarized by its status; the status of the chapter at original index `i`
of the call's chapter array is given by an oracle `stat i`.  The model tracks
what matters to the manifest rewrite: which `(index, chapter)` pairs are
pushed onto `processed` (`ok` and `ok (retry)` statuses), and the in-place
`splice` removals on the live `jsonData.chapters` array, chapter indices
being computed as `chunkIndex * concurrencyLimit + chapterIndex` relative to
the array as it was when `processChapters` started. -/

/-- A manifest entry (`{slug, title}`). -/
structure Chapter where
  slug : String
  title : String
deriving DecidableEq, Repr

/-- Status of one chapter inside a wave. -/
inductive ChapterStatus where
  | ok
  | okRetry
  | failed
  | retryFailed
  | processingError
  | aborted
deriving DecidableEq, Repr

/-- Statuses that push the chapter onto `processed` for manifest removal. -/
def ChapterStatus.removesFromManifest : ChapterStatus → Bool
  | .ok => true
  | .okRetry => true
  | _ => false

/-- One wave (chunk) of a `processChapters` run: the live `jsonData.chapters`
list before the wave, the chapters of the wave that returned `ok` /
`ok (retry)`, and the live list after the wave's splices (the content written
back to the manifest file when any chapter succeeded). -/
structure WaveRecord where
  pre : List Chapter
  okEntries : List Chapter
  post : List Chapter
deriving DecidableEq, Repr

/-- The `(index, chapter)` pairs a wave pushes onto `processed`:
`index = chunkIndex * limit + chapterIndex` against the start-of-call array. -/
def waveProcessed (limit : Nat) (stat : Nat → ChapterStatus) (chunkIndex : Nat)
    (chunk : List Chapter) : List (Nat × Chapter) :=
  (chunk.enum.filter fun p => (stat (chunkIndex * limit + p.1)).removesFromManifest).map
    fun p => (chunkIndex * limit + p.1, p.2)

/-- `processed.sort((a, b) => b.index - a.index)` followed by
`jsonData.chapters.splice(item.index, 1)` for each item: the ascending index
list is reversed (= sorted descending) and each index is erased from the live
list (`splice` out of range removes nothing, like `List.eraseIdx`). -/
def spliceOutDesc (live : List Chapter) (idxs : List Nat) : List Chapter :=
  idxs.reverse.foldl (fun l i => l.eraseIdx i) live

/-- The chunk loop of `processChapters`, threading the live
`jsonData.chapters` array through the per-wave splices and recording every
wave. -/
def processChaptersGo (limit : Nat) (stat : Nat → ChapterStatus) :
    Nat → List (List Chapter) → List Chapter → List WaveRecord × List Chapter
  | _, [], live => ([], live)
  | chunkIndex, chunk :: rest, live =>
    let processed := waveProcessed limit stat chunkIndex chunk
    let live2 := spliceOutDesc live (processed.map (·.1))
    let r := processChaptersGo limit stat (chunkIndex + 1) rest live2
    (⟨live, processed.map (·.2), live2⟩ :: r.1, r.2)

/-- `processChapters(chapters, concurrencyLimit = 3)`: chunk the start-of-call
array, then run the waves against the live array (which is the same array
object as `jsonData.chapters`).  Returns the wave trace and the final live
chapter list. -/
def processChapters (limit : Nat) (stat : Nat → ChapterStatus)
    (chapters : List Chapter) : List WaveRecord × List Chapter :=
  processChaptersGo limit stat 0 (chunksOf limit chapters) chapters

/-! ## `/auto-json`: soft deadline and outer loop -/

/-- The per-chunk abort check of `processChapters` (lines checking
`controller.signal.aborted`): when the signal has fired but
`checkRemainingChapters()` is true, the timeout is cleared and processing
continues; only with no chapters remaining does it throw.  Returns `true`
when processing continues. -/
def softDeadlineContinues (signalAborted : Bool) (remaining : List Chapter) : Bool :=
  if signalAborted then decide (remaining.length > 0) else true

/-- Outcome of the outer `while (jsonData.chapters.length > 0)` loop of
`/auto-json`, with explicit fuel (the loop itself has no bound). -/
structure LoopResult where
  finishedAll : Bool
  remaining : List Chapter
  pauses : Nat
deriving DecidableEq, Repr

/-- The outer loop: while chapters remain, run a wave batch
(`processChapters`); break out when the manifest is empty; when a batch made
zero progress, sleep 5s (counted in `pauses`) and retry. -/
def autoJsonLoop (waveStep : List Chapter → List Unit × List Chapter) :
    Nat → List Chapter → Nat → LoopResult
  | 0, chapters, pauses => ⟨false, chapters, pauses⟩
  | fuel + 1, chapters, pauses =>
    if chapters.isEmpty then ⟨true, chapters, pauses⟩
    else
      let stepOut := waveStep chapters
      if stepOut.2.isEmpty then ⟨true, stepOut.2, pauses⟩
      else if stepOut.1.isEmpty then autoJsonLoop waveStep fuel stepOut.2 (pauses + 1)
      else autoJsonLoop waveStep fuel stepOut.2 pauses

/-! ## `/get`: single-image rehost keyed by filename -/

/-- The result of `new URL(imageUrl)` (URL parsing is a platform primitive):
the full href and the pathname component. -/
structure JsURL where
  href : String
  pathname : String
deriving DecidableEq, Repr

/-- A row of the `thumbnails` table, keyed by `filename`. -/
structure ThumbRow where
  source_url : String
  cdn_url : String
deriving DecidableEq, Repr

/-- The `thumbnails` table. -/
def ThumbDB : Type := List (String × ThumbRow)

/-- `path.basename(pathname)`: the last path segment, ignoring trailing
slashes. -/
def basename (p : String) : String :=
  let rev := p.data.reverse.dropWhile (fun c => c == '/')
  String.mk (rev.takeWhile (fun c => c != '/')).reverse

/-- JSON body of a successful `/get` response. -/
structure GetResponse where
  cdnUrl : String
deriving DecidableEq, Repr

/-- The `/get` route: derive `fileName = path.basename(parsedUrl.pathname)`;
`SELECT cdn_url FROM thumbnails WHERE filename = fileName` — on a hit return
the stored CDN URL immediately; on a miss, fetch the image through a pooled
browser and upload it (summarized by the oracle `fetchedCdnUrl`), upsert the
row keyed by the filename, and return the new CDN URL.  The third component
reports whether the fetch + upload was performed. -/
def getRoute (db : ThumbDB) (url : JsURL) (fetchedCdnUrl : String) :
    ThumbDB × GetResponse × Bool :=
  let fileName := basename url.pathname
  match dbLookup db fileName with
  | some row => (db, ⟨row.cdn_url⟩, false)
  | none => (dbUpsert db fileName ⟨url.href, fetchedCdnUrl⟩, ⟨fetchedCdnUrl⟩, true)

/-! ## Route reduction lemmas for `/get-comic` -/

theorem getComicRoute_fresh (db : ComicDB) (cache : CacheStore) (slug : String)
    (imageUrls : List String) (att : Nat → Nat → Option String)
    (hdb : getComicFromDB db slug = none)
    (hc : dbLookup cache ("comic-" ++ slug) = none) :
    getComicRoute db cache slug imageUrls att
      = getComicIngest db cache slug (urlBase ++ slug ++ "/") imageUrls att := by
  unfold getComicRoute
  rw [hdb]
  show getComicFreshPath db cache slug imageUrls att = _
  unfold getComicFreshPath
  rw [hc]

theorem getComicIngest_components (db : ComicDB) (cache : CacheStore)
    (slug fullUrl : String) (imageUrls : List String) (att : Nat → Nat → Option String) :
    getComicIngest db cache slug fullUrl imageUrls att
      = ((if (ingestUploads imageUrls att).length > 0
            then (saveComicToDB db slug fullUrl ((ingestUploads imageUrls att).map some)).1
            else db),
         dbUpsert cache ("comic-" ++ slug)
           ⟨true, ingestUploads imageUrls att, false, "freshly scraped",
             if (ingestUploads imageUrls att).length ≠ imageUrls.length
               then some "Beberapa gambar gagal diupload" else none⟩,
         ⟨true, ingestUploads imageUrls att, false, "freshly scraped",
           if (ingestUploads imageUrls att).length ≠ imageUrls.length
             then some "Beberapa gambar gagal diupload" else none⟩) := rfl

theorem saveComicToDB_all_valid (db : ComicDB) (slug fullUrl : String)
    (urls : List String) (hne : urls ≠ []) :
    saveComicToDB db slug fullUrl (urls.map some)
      = (dbUpsert db slug ⟨fullUrl, jsJoin ',' urls, urls.length⟩, true) := by
  obtain ⟨a, as, rfl⟩ : ∃ a as, urls = a :: as := by
    cases urls with
    | nil => exact absurd rfl hne
    | cons a as => exact ⟨a, as, rfl⟩
  unfold saveComicToDB
  simp [filterMap_id_map_some]

/-- Claim C1: for a `/get-comic` request that scrapes fresh (database and
memory cache both miss) and uploads at least one of the extracted images, the
persisted `comics` row for the slug holds exactly the successfully uploaded
CDN URLs (as the comma-joined `image_url`) with `total_images` equal to their
count; the response has `success : true`, its `images` are those URLs, the
`warning` field is set when some image failed, and absent when every image
uploaded. -/
theorem getComic_partial_upload_persists (db : ComicDB) (cache : CacheStore)
    (slug : String) (imageUrls : List String) (att : Nat → Nat → Option String)
    (hdb : getComicFromDB db slug = none)
    (hc : dbLookup cache ("comic-" ++ slug) = none)
    (hM : ingestUploads imageUrls att ≠ []) :
    dbLookup (getComicRoute db cache slug imageUrls att).1 slug
      = some ⟨urlBase ++ slug ++ "/", jsJoin ',' (ingestUploads imageUrls att),
          (ingestUploads imageUrls att).length⟩
    ∧ (getComicRoute db cache slug imageUrls att).2.2.success = true
    ∧ (getComicRoute db cache slug imageUrls att).2.2.images = ingestUploads imageUrls att
    ∧ ((ingestUploads imageUrls att).length < imageUrls.length →
        (getComicRoute db cache slug imageUrls att).2.2.warning
          = some "Beberapa gambar gagal diupload")
    ∧ ((ingestUploads imageUrls att).length = imageUrls.length →
        (getComicRoute db cache slug imageUrls att).2.2.warning = none) := by
  rw [getComicRoute_fresh db cache slug imageUrls att hdb hc,
    getComicIngest_components db cache slug (urlBase ++ slug ++ "/") imageUrls att]
  have hlen : (ingestUploads imageUrls att).length > 0 := List.length_pos.mpr hM
  rw [if_pos hlen, saveComicToDB_all_valid db slug (urlBase ++ slug ++ "/")
    (ingestUploads imageUrls att) hM]
  refine ⟨dbLookup_dbUpsert_self db slug _, rfl, rfl, ?_, ?_⟩
  · intro hlt
    simp only
    rw [if_pos (by omega)]
  · intro heq
    simp only
    rw [if_neg (by omega)]

/-- Witness for C1 at a concrete input: two extracted images of which the
first uploads to `cdn1` and the second permanently fails. -/
theorem getComic_partial_upload_persists_check :
    dbLookup (getComicRoute [] [] "s" ["http://h/a.jpg", "http://h/b.jpg"]
        (fun i _ => if i = 0 then some "cdn1" else none)).1 "s"
      = some ⟨urlBase ++ "s" ++ "/",
          jsJoin ','
            (ingestUploads ["http://h/a.jpg", "http://h/b.jpg"]
              (fun i _ => if i = 0 then some "cdn1" else none)),
          (ingestUploads ["http://h/a.jpg", "http://h/b.jpg"]
            (fun i _ => if i = 0 then some "cdn1" else none)).length⟩
    ∧ (getComicRoute [] [] "s" ["http://h/a.jpg", "http://h/b.jpg"]
        (fun i _ => if i = 0 then some "cdn1" else none)).2.2.success = true
    ∧ (getComicRoute [] [] "s" ["http://h/a.jpg", "http://h/b.jpg"]
        (fun i _ => if i = 0 then some "cdn1" else none)).2.2.images
      = ingestUploads ["http://h/a.jpg", "http://h/b.jpg"]
          (fun i _ => if i = 0 then some "cdn1" else none)
    ∧ ((ingestUploads ["http://h/a.jpg", "http://h/b.jpg"]
          (fun i _ => if i = 0 then some "cdn1" else none)).length
          < (["http://h/a.jpg", "http://h/b.jpg"] : List String).length →
        (getComicRoute [] [] "s" ["http://h/a.jpg", "http://h/b.jpg"]
          (fun i _ => if i = 0 then some "cdn1" else none)).2.2.warning
          = some "Beberapa gambar gagal diupload")
    ∧ ((ingestUploads ["http://h/a.jpg", "http://h/b.jpg"]
          (fun i _ => if i = 0 then some "cdn1" else none)).length
          = (["http://h/a.jpg", "http://h/b.jpg"] : List String).length →
        (getComicRoute [] [] "s" ["http://h/a.jpg", "http://h/b.jpg"]
          (fun i _ => if i = 0 then some "cdn1" else none)).2.2.warning = none) :=
  getComic_partial_upload_persists [] [] "s" ["http://h/a.jpg", "http://h/b.jpg"]
    (fun i _ => if i = 0 then some "cdn1" else none) rfl rfl (by decide)

theorem jsJoin_ne_empty (l : List String) (hne : l ≠ []) (h : ∀ u ∈ l, u ≠ "") :
    jsJoin ',' l ≠ "" := by
  intro hcon
  have hdata : jsJoinAux ',' (l.map String.data) = [] := congrArg String.data hcon
  have hmap : l.map String.data ≠ [] := by
    intro hx
    exact hne (List.map_eq_nil_iff.mp hx)
  have helem : ∀ s ∈ l.map String.data, s ≠ [] := by
    intro s hs hsnil
    rcases List.mem_map.mp hs with ⟨u, hu, rfl⟩
    exact h u hu (String.ext hsnil)
  exact jsJoinAux_ne_nil ',' (l.map String.data) hmap helem hdata

/-- Claim C2, counterexample: a CDN URL containing a comma does not survive the
comma-joined storage format — the read splits it into two fragments, so
`getComicFromDB` does not return the uploaded list. -/
theorem getComicFromDB_comma_url_not_roundtrip :
    ingestUploads ["http://src/1.jpg"] (fun _ _ => some "https://cdn.example/a,b.jpg")
      = ["https://cdn.example/a,b.jpg"]
    ∧ getComicFromDB
        (getComicRoute [] [] "s" ["http://src/1.jpg"]
          (fun _ _ => some "https://cdn.example/a,b.jpg")).1 "s"
      = some ["https://cdn.example/a", "b.jpg"]
    ∧ getComicFromDB
        (getComicRoute [] [] "s" ["http://src/1.jpg"]
          (fun _ _ => some "https://cdn.example/a,b.jpg")).1 "s"
      ≠ some (ingestUploads ["http://src/1.jpg"]
          (fun _ _ => some "https://cdn.example/a,b.jpg")) := by decide

/-- Claim C2 (amended): for a fresh `/get-comic` scrape whose ingestion
uploaded at least one image, provided every uploaded CDN URL is non-empty
and comma-free, a subsequent `getComicFromDB(slug)` returns exactly the list
of successfully uploaded CDN URLs in upload order (batch order, then index
order within a batch — the order `ingestUploads` produces): the save joins
the list with commas and the read splits it back. -/
theorem getComicFromDB_roundtrip_uploaded (db : ComicDB) (cache : CacheStore)
    (slug : String) (imageUrls : List String) (att : Nat → Nat → Option String)
    (hdb : getComicFromDB db slug = none)
    (hc : dbLookup cache ("comic-" ++ slug) = none)
    (hM : ingestUploads imageUrls att ≠ [])
    (hok : ∀ u ∈ ingestUploads imageUrls att, u ≠ "" ∧ ',' ∉ u.data) :
    getComicFromDB (getComicRoute db cache slug imageUrls att).1 slug
      = some (ingestUploads imageUrls att) := by
  rw [getComicRoute_fresh db cache slug imageUrls att hdb hc,
    getComicIngest_components db cache slug (urlBase ++ slug ++ "/") imageUrls att]
  have hlen : (ingestUploads imageUrls att).length > 0 := List.length_pos.mpr hM
  rw [if_pos hlen, saveComicToDB_all_valid db slug (urlBase ++ slug ++ "/")
    (ingestUploads imageUrls att) hM]
  unfold getComicFromDB
  rw [dbLookup_dbUpsert_self]
  have hjoin : jsJoin ',' (ingestUploads imageUrls att) ≠ "" :=
    jsJoin_ne_empty _ hM (fun u hu => (hok u hu).1)
  simp only [hjoin]
  rw [if_pos hjoin]
  rw [jsSplit_jsJoin (ingestUploads imageUrls att) hM hok]

/-- Witness for the amended C2 at a concrete input: one image uploading to a
comma-free CDN URL round-trips through the database. -/
theorem getComicFromDB_roundtrip_uploaded_check :
    getComicFromDB
      (getComicRoute [] [] "s" ["http://src/1.jpg"]
        (fun _ _ => some "https://cdn.example/1.jpg")).1 "s"
      = some (ingestUploads ["http://src/1.jpg"]
          (fun _ _ => some "https://cdn.example/1.jpg")) :=
  getComicFromDB_roundtrip_uploaded [] [] "s" ["http://src/1.jpg"]
    (fun _ _ => some "https://cdn.example/1.jpg") rfl rfl (by decide) (by decide)

/-- Claim C3: `saveComicToDB` never overwrites a stored image list with an
empty one — called with an empty array, or any array whose entries are all
`null`/`undefined`, it writes nothing and returns `false`; and a `/get-comic`
scrape whose uploads all fail persists nothing while the response still
reports `success : true` for the scrape itself. -/
theorem saveComicToDB_rejects_empty (db : ComicDB) (cache : CacheStore)
    (slug fullUrl : String) (imgsOpt : List (Option String))
    (imageUrls : List String) (att : Nat → Nat → Option String)
    (hempty : imgsOpt.filterMap id = [])
    (hdb : getComicFromDB db slug = none)
    (hc : dbLookup cache ("comic-" ++ slug) = none)
    (hz : ingestUploads imageUrls att = []) :
    saveComicToDB db slug fullUrl imgsOpt = (db, false)
    ∧ (getComicRoute db cache slug imageUrls att).1 = db
    ∧ (getComicRoute db cache slug imageUrls att).2.2.success = true := by
  refine ⟨?_, ?_, ?_⟩
  · unfold saveComicToDB
    cases imgsOpt with
    | nil => rfl
    | cons a rest =>
      simp only [List.isEmpty_cons, if_false, Bool.false_eq_true, hempty]
      rfl
  · rw [getComicRoute_fresh db cache slug imageUrls att hdb hc,
      getComicIngest_components db cache slug (urlBase ++ slug ++ "/") imageUrls att]
    rw [hz]
    rfl
  · rw [getComicRoute_fresh db cache slug imageUrls att hdb hc,
      getComicIngest_components db cache slug (urlBase ++ slug ++ "/") imageUrls att]

/-- Witness for C3 at a concrete input: an all-`null` array is rejected, and a
scrape of one image whose upload permanently fails leaves the database
untouched while the response succeeds. -/
theorem saveComicToDB_rejects_empty_check :
    saveComicToDB [] "s" "u" [none, none] = ([], false)
    ∧ (getComicRoute [] [] "s" ["http://h/a.jpg"] (fun _ _ => none)).1 = []
    ∧ (getComicRoute [] [] "s" ["http://h/a.jpg"] (fun _ _ => none)).2.2.success = true :=
  saveComicToDB_rejects_empty [] [] "s" "u" [none, none] ["http://h/a.jpg"]
    (fun _ _ => none) rfl rfl rfl (by decide)

/-- Claim C9: a `/get-comic` request served from the in-memory cache (the slug
absent from the database — which is checked first — but its `comic-` key
present in the cache within its TTL) returns exactly the response object the
earlier fresh scrape stored there, and that object reports `cached : false`
and `source : 'freshly scraped'` even though it was served from the cache;
by contrast a database hit reports `cached : true` with
`source : 'database'`. -/
theorem memory_cache_hit_returns_stored_fresh_response (db db3 : ComicDB)
    (cache : CacheStore) (slug : String) (imageUrls imageUrls2 : List String)
    (att att2 : Nat → Nat → Option String) (l3 : List String)
    (hdb : getComicFromDB db slug = none)
    (hc : dbLookup cache ("comic-" ++ slug) = none)
    (hz : ingestUploads imageUrls att = [])
    (hdb3 : getComicFromDB db3 slug = some l3) (hl3 : l3 ≠ []) :
    (getComicRoute db cache slug imageUrls att).1 = db
    ∧ getComicRoute (getComicRoute db cache slug imageUrls att).1
        (getComicRoute db cache slug imageUrls att).2.1 slug imageUrls2 att2
      = getComicRoute db cache slug imageUrls att
    ∧ (getComicRoute db cache slug imageUrls att).2.2.cached = false
    ∧ (getComicRoute db cache slug imageUrls att).2.2.source = "freshly scraped"
    ∧ (getComicRoute db3 cache slug imageUrls att).2.2.cached = true
    ∧ (getComicRoute db3 cache slug imageUrls att).2.2.source = "database" := by
  have h1 : getComicRoute db cache slug imageUrls att
      = (db,
         dbUpsert cache ("comic-" ++ slug)
           ⟨true, [], false, "freshly scraped",
             if (0 : Nat) ≠ imageUrls.length
               then some "Beberapa gambar gagal diupload" else none⟩,
         ⟨true, [], false, "freshly scraped",
           if (0 : Nat) ≠ imageUrls.length
             then some "Beberapa gambar gagal diupload" else none⟩) := by
    rw [getComicRoute_fresh db cache slug imageUrls att hdb hc,
      getComicIngest_components db cache slug (urlBase ++ slug ++ "/") imageUrls att]
    rw [hz]
    rfl
  have h3 : getComicRoute db3 cache slug imageUrls att
      = (db3, cache, ⟨true, l3, true, "database", none⟩) := by
    unfold getComicRoute
    rw [hdb3]
    show (if l3.length > 0
        then (db3, cache, (⟨true, l3, true, "database", none⟩ : ComicResponse))
        else getComicFreshPath db3 cache slug imageUrls att)
      = (db3, cache, (⟨true, l3, true, "database", none⟩ : ComicResponse))
    rw [if_pos (List.length_pos.mpr hl3)]
  refine ⟨by rw [h1], ?_, by rw [h1], by rw [h1], by rw [h3], by rw [h3]⟩
  rw [h1]
  unfold getComicRoute
  rw [hdb]
  show getComicFreshPath _ _ _ _ _ = _
  unfold getComicFreshPath
  rw [dbLookup_dbUpsert_self]

/-- Witness for C9 at a concrete input: a zero-upload fresh scrape followed by
a second request served from the memory cache, and a database hit for
contrast. -/
theorem memory_cache_hit_returns_stored_fresh_response_check :
    (getComicRoute [] [] "s" ["http://h/a.jpg"] (fun _ _ => none)).1 = []
    ∧ getComicRoute (getComicRoute [] [] "s" ["http://h/a.jpg"] (fun _ _ => none)).1
        (getComicRoute [] [] "s" ["http://h/a.jpg"] (fun _ _ => none)).2.1 "s"
        ["http://h/other.jpg"] (fun _ _ => some "x")
      = getComicRoute [] [] "s" ["http://h/a.jpg"] (fun _ _ => none)
    ∧ (getComicRoute [] [] "s" ["http://h/a.jpg"] (fun _ _ => none)).2.2.cached = false
    ∧ (getComicRoute [] [] "s" ["http://h/a.jpg"] (fun _ _ => none)).2.2.source
      = "freshly scraped"
    ∧ (getComicRoute [("s", ⟨"u", "cdn1", 1⟩)] [] "s" ["http://h/a.jpg"]
        (fun _ _ => none)).2.2.cached = true
    ∧ (getComicRoute [("s", ⟨"u", "cdn1", 1⟩)] [] "s" ["http://h/a.jpg"]
        (fun _ _ => none)).2.2.source = "database" :=
  memory_cache_hit_returns_stored_fresh_response [] [("s", ⟨"u", "cdn1", 1⟩)] []
    "s" ["http://h/a.jpg"] ["http://h/other.jpg"] (fun _ _ => none)
    (fun _ _ => some "x") ["cdn1"] rfl rfl (by decide) (by decide) (by decide)

/-- Claim C4, counterexample: with an `/auto-fetch` job in flight
(`autoFetchInProgress` set), a batch-start request to `/auto-thumbnail` is
not rejected — it is accepted and starts a second concurrent batch job,
because `/auto-thumbnail` checks only its own separate
`autoThumbnailInProgress` flag. -/
theorem autoThumbnail_start_not_blocked_by_autoFetch :
    (startAutoFetch ⟨false, none, false, none⟩ 0 ⟨"slug.json", 0⟩).2 = none
    ∧ (startAutoFetch ⟨false, none, false, none⟩ 0
        ⟨"slug.json", 0⟩).1.autoFetchInProgress = true
    ∧ (startAutoThumbnail (startAutoFetch ⟨false, none, false, none⟩ 0
        ⟨"slug.json", 0⟩).1 5000 ⟨"query", 5000⟩).2 = none
    ∧ (startAutoThumbnail (startAutoFetch ⟨false, none, false, none⟩ 0
        ⟨"slug.json", 0⟩).1 5000 ⟨"query", 5000⟩).1.autoFetchInProgress = true
    ∧ (startAutoThumbnail (startAutoFetch ⟨false, none, false, none⟩ 0
        ⟨"slug.json", 0⟩).1 5000 ⟨"query", 5000⟩).1.autoThumbnailInProgress
      = true := by decide

/-- Claim C4 (amended): single-flight holds per lock group, not across all
three endpoints — `/auto-fetch` and `/auto-json` share the
`autoFetchInProgress` lock, so while it is set either start is rejected with
HTTP 429 carrying the in-flight operation's start time and elapsed seconds
and no state change; `/auto-thumbnail` has its own independent
`autoThumbnailInProgress` lock with the same behavior; an accepted start
sets its own group's flag. -/
theorem single_flight_per_lock_group (s : LockState) (now : Nat) (op : BatchOp)
    (hf : s.autoFetchInProgress = true) :
    startAutoFetch s now op = (s, some (rejectInfo now s.currentAutoFetchOperation))
    ∧ startAutoJson s now op = (s, some (rejectInfo now s.currentAutoFetchOperation))
    ∧ (∀ s2 : LockState, s2.autoThumbnailInProgress = true →
        startAutoThumbnail s2 now op
          = (s2, some (rejectInfo now s2.currentThumbnailOperation)))
    ∧ (∀ s3 : LockState, s3.autoFetchInProgress = false →
        (startAutoFetch s3 now op).1.autoFetchInProgress = true
        ∧ (startAutoFetch s3 now op).2 = none)
    ∧ (∀ s4 : LockState, s4.autoThumbnailInProgress = false →
        (startAutoThumbnail s4 now op).1.autoThumbnailInProgress = true
        ∧ (startAutoThumbnail s4 now op).2 = none) := by
  refine ⟨?_, ?_, ?_, ?_, ?_⟩
  · simp [startAutoFetch, hf]
  · simp [startAutoJson, hf]
  · intro s2 h2
    simp [startAutoThumbnail, h2]
  · intro s3 h3
    simp [startAutoFetch, h3]
  · intro s4 h4
    simp [startAutoThumbnail, h4]

/-- Witness for the amended C4 at a concrete lock state with an in-flight
`/auto-fetch` operation. -/
theorem single_flight_per_lock_group_check :
    startAutoFetch ⟨true, some ⟨"q", 100⟩, false, none⟩ 5100 ⟨"r", 5100⟩
      = (⟨true, some ⟨"q", 100⟩, false, none⟩,
         some (rejectInfo 5100 (some ⟨"q", 100⟩)))
    ∧ startAutoJson ⟨true, some ⟨"q", 100⟩, false, none⟩ 5100 ⟨"r", 5100⟩
      = (⟨true, some ⟨"q", 100⟩, false, none⟩,
         some (rejectInfo 5100 (some ⟨"q", 100⟩)))
    ∧ (∀ s2 : LockState, s2.autoThumbnailInProgress = true →
        startAutoThumbnail s2 5100 ⟨"r", 5100⟩
          = (s2, some (rejectInfo 5100 s2.currentThumbnailOperation)))
    ∧ (∀ s3 : LockState, s3.autoFetchInProgress = false →
        (startAutoFetch s3 5100 ⟨"r", 5100⟩).1.autoFetchInProgress = true
        ∧ (startAutoFetch s3 5100 ⟨"r", 5100⟩).2 = none)
    ∧ (∀ s4 : LockState, s4.autoThumbnailInProgress = false →
        (startAutoThumbnail s4 5100 ⟨"r", 5100⟩).1.autoThumbnailInProgress = true
        ∧ (startAutoThumbnail s4 5100 ⟨"r", 5100⟩).2 = none) :=
  single_flight_per_lock_group ⟨true, some ⟨"q", 100⟩, false, none⟩ 5100
    ⟨"r", 5100⟩ rfl

/-- Claim C5, behavior of the code at the failing input: a manifest of six
chapters processed with concurrency 3 where every chapter returns `ok`.  The
second wave's `processed` indices (3, 4, 5) are computed against the
start-of-call array, but by then the live `jsonData.chapters` array has
already been shortened to three entries by the first wave's splices, so all
three `splice` calls remove nothing: the rewritten manifest still contains
chapters 4-6 (wave record: `pre = okEntries = post`), although the claim
requires the post-wave list to be the pre-wave list minus the `ok` entries,
which here would be empty. -/
theorem manifest_rewrite_stale_indices :
    processChapters 3 (fun _ => ChapterStatus.ok)
      [⟨"c1", "t1"⟩, ⟨"c2", "t2"⟩, ⟨"c3", "t3"⟩, ⟨"c4", "t4"⟩, ⟨"c5", "t5"⟩, ⟨"c6", "t6"⟩]
      = ([⟨[⟨"c1", "t1"⟩, ⟨"c2", "t2"⟩, ⟨"c3", "t3"⟩,
            ⟨"c4", "t4"⟩, ⟨"c5", "t5"⟩, ⟨"c6", "t6"⟩],
           [⟨"c1", "t1"⟩, ⟨"c2", "t2"⟩, ⟨"c3", "t3"⟩],
           [⟨"c4", "t4"⟩, ⟨"c5", "t5"⟩, ⟨"c6", "t6"⟩]⟩,
          ⟨[⟨"c4", "t4"⟩, ⟨"c5", "t5"⟩, ⟨"c6", "t6"⟩],
           [⟨"c4", "t4"⟩, ⟨"c5", "t5"⟩, ⟨"c6", "t6"⟩],
           [⟨"c4", "t4"⟩, ⟨"c5", "t5"⟩, ⟨"c6", "t6"⟩]⟩],
         [⟨"c4", "t4"⟩, ⟨"c5", "t5"⟩, ⟨"c6", "t6"⟩])
    ∧ ([⟨"c4", "t4"⟩, ⟨"c5", "t5"⟩, ⟨"c6", "t6"⟩] : List Chapter)
      ≠ List.filter
          (fun c => decide (c ∉ ([⟨"c4", "t4"⟩, ⟨"c5", "t5"⟩, ⟨"c6", "t6"⟩] : List Chapter)))
          [⟨"c4", "t4"⟩, ⟨"c5", "t5"⟩, ⟨"c6", "t6"⟩] := by decide

/-- Claim C6: an image URL whose fetch permanently fails is attempted exactly
4 times in total (initial attempt + 3 retries), with backoff sleeps of 1s,
2s and 4s before the respective retries, the final failure propagates to the
caller, and the 20-second timeout handle of every attempt is cleared on
every exit path. -/
theorem fetchImageBuffer_retry_bound (att : Nat → Option Nat)
    (h : ∀ n, att n = none) :
    (fetchImageBuffer att 0).result = none
    ∧ (fetchImageBuffer att 0).attempts = 4
    ∧ (fetchImageBuffer att 0).sleepsMs = [1000, 2000, 4000]
    ∧ ∀ retryCount, ∀ b ∈ (fetchImageBuffer att retryCount).timersCleared, b = true := by
  have h3 : fetchImageBuffer att 3 = ⟨none, 1, [], [true]⟩ := by
    rw [fetchImageBuffer, h 3]
    norm_num
  have h2 : fetchImageBuffer att 2 = ⟨none, 2, [4000], [true, true]⟩ := by
    rw [fetchImageBuffer, h 2]
    norm_num [h3]
  have h1 : fetchImageBuffer att 1 = ⟨none, 3, [2000, 4000], [true, true, true]⟩ := by
    rw [fetchImageBuffer, h 1]
    norm_num [h2]
  have h0 : fetchImageBuffer att 0
      = ⟨none, 4, [1000, 2000, 4000], [true, true, true, true]⟩ := by
    rw [fetchImageBuffer, h 0]
    norm_num [h1]
  refine ⟨by rw [h0], by rw [h0], by rw [h0], ?_⟩
  intro retryCount
  exact fetchImageBuffer_timers_cleared att 4 retryCount (by omega)

/-- Witness for C6 with the everywhere-failing fetch oracle. -/
theorem fetchImageBuffer_retry_bound_check :
    (fetchImageBuffer (fun _ => none) 0).result = none
    ∧ (fetchImageBuffer (fun _ => none) 0).attempts = 4
    ∧ (fetchImageBuffer (fun _ => none) 0).sleepsMs = [1000, 2000, 4000]
    ∧ ∀ retryCount, ∀ b ∈ (fetchImageBuffer (fun _ => none) retryCount).timersCleared,
        b = true :=
  fetchImageBuffer_retry_bound (fun _ => none) (fun _ => rfl)

/-- Claim C7, counterexample: the hourly recycle empties and re-initializes
the pool while previously issued sessions are still checked out, so the
number of concurrently checked-out sessions exceeds the pool size — with
`POOL_SIZE = 3`, after three acquisitions, a recycle, a re-initialization
and one more acquisition, four sessions are checked out at once. -/
theorem pool_checkout_exceeds_capacity_after_recycle :
    (poolRun 3 [PoolEvent.init 3, PoolEvent.acquire, PoolEvent.acquire,
      PoolEvent.acquire, PoolEvent.recycleReset, PoolEvent.init 3,
      PoolEvent.acquire]).checkedOut = 4
    ∧ ¬ (poolRun 3 [PoolEvent.init 3, PoolEvent.acquire, PoolEvent.acquire,
        PoolEvent.acquire, PoolEvent.recycleReset, PoolEvent.init 3,
        PoolEvent.acquire]).checkedOut ≤ 3 := by decide

/-- Claim C7 (amended): in any execution without a recycle, after
initialization the number of concurrently checked-out sessions never exceeds
the pool size `P` and the idle pool never exceeds `P`; and `releaseBrowser`
never grows the idle pool beyond `P` (it pushes the session back only when
the pool is below capacity, otherwise closes it).  Across the hourly recycle
the checked-out bound fails (see the counterexample), because the fresh pool
does not account for still-checked-out sessions. -/
theorem pool_bounds_without_recycle (P : Nat) (events : List PoolEvent)
    (hinit : ∀ k, PoolEvent.init k ∈ events → k ≤ P)
    (hnr : PoolEvent.recycleReset ∉ events) :
    (poolRun P events).checkedOut ≤ P
    ∧ (poolRun P events).idle ≤ P
    ∧ ∀ s : PoolState, s.idle ≤ P → (poolStep P s PoolEvent.release).idle ≤ P := by
  have hstart : PoolInv P ⟨0, 0, false⟩ := by
    constructor
    · simp
    · intro _
      exact ⟨rfl, rfl⟩
  have hInv : PoolInv P (poolRun P events) :=
    poolFold_inv P events ⟨0, 0, false⟩ hstart hinit hnr
  obtain ⟨hsum, _⟩ := hInv
  refine ⟨by omega, by omega, ?_⟩
  intro s hs
  by_cases hco : s.checkedOut = 0
  · simpa [poolStep, hco] using hs
  · by_cases hlt : s.idle < P
    · simp [poolStep, hco, hlt]
      omega
    · simpa [poolStep, hco, hlt] using hs

/-- Witness for the amended C7: a recycle-free trace with `P = 1`. -/
theorem pool_bounds_without_recycle_check :
    (poolRun 1 [PoolEvent.init 1, PoolEvent.acquire, PoolEvent.release]).checkedOut ≤ 1
    ∧ (poolRun 1 [PoolEvent.init 1, PoolEvent.acquire, PoolEvent.release]).idle ≤ 1
    ∧ ∀ s : PoolState, s.idle ≤ 1 → (poolStep 1 s PoolEvent.release).idle ≤ 1 :=
  pool_bounds_without_recycle 1 [PoolEvent.init 1, PoolEvent.acquire, PoolEvent.release]
    (by
      intro k hk
      simp only [List.mem_cons, List.not_mem_nil, or_false] at hk
      rcases hk with hk | hk | hk <;> simp_all)
    (by decide)

/-- Claim C8: in the manifest orchestrator, a fired overall deadline with
chapters remaining is a soft signal — the per-chunk abort check continues
(resetting the timeout) rather than terminating, and it throws only when no
chapters remain; the outer loop finishes only when the manifest is empty,
and a wave that made zero progress leads to a 5-second pause followed by a
retry of the remaining chapters. -/
theorem autoJson_soft_deadline (remaining chapters : List Chapter)
    (waveStep : List Chapter → List Unit × List Chapter) (fuel pauses : Nat)
    (hrem : remaining ≠ []) (hch : chapters ≠ [])
    (hzero : (waveStep chapters).1 = []) (hleft : (waveStep chapters).2 ≠ []) :
    softDeadlineContinues true remaining = true
    ∧ softDeadlineContinues true [] = false
    ∧ (∀ f c p, (autoJsonLoop waveStep f c p).finishedAll = true →
        (autoJsonLoop waveStep f c p).remaining = [])
    ∧ autoJsonLoop waveStep (fuel + 1) chapters pauses
      = autoJsonLoop waveStep fuel (waveStep chapters).2 (pauses + 1) := by
  refine ⟨?_, rfl, ?_, ?_⟩
  · simp [softDeadlineContinues, List.length_pos, hrem]
  · intro f
    induction f with
    | zero =>
      intro c p hfin
      simp [autoJsonLoop] at hfin
    | succ n ih =>
      intro c p hfin
      by_cases hc : c.isEmpty
      · simp only [autoJsonLoop, hc, if_true]
        exact List.isEmpty_iff.mp hc
      · simp only [autoJsonLoop, hc, if_false] at hfin ⊢
        by_cases h2 : (waveStep c).2.isEmpty
        · simp only [h2, if_true]
          exact List.isEmpty_iff.mp h2
        · simp only [h2, if_false] at hfin ⊢
          by_cases h1 : (waveStep c).1.isEmpty
          · simp only [h1, if_true] at hfin ⊢
            exact ih (waveStep c).2 (p + 1) hfin
          · simp only [h1, if_false] at hfin ⊢
            exact ih (waveStep c).2 p hfin
  · have hch2 : chapters.isEmpty = false := by
      cases chapters with
      | nil => exact absurd rfl hch
      | cons a as => rfl
    have hleft2 : (waveStep chapters).2.isEmpty = false := by
      cases hw : (waveStep chapters).2 with
      | nil => exact absurd hw hleft
      | cons a as => rfl
    have hzero2 : (waveStep chapters).1.isEmpty = true := by
      rw [hzero]
      rfl
    simp [autoJsonLoop, hch2, hleft2, hzero2]

/-- Witness for C8 at a concrete manifest state: one chapter remaining at the
deadline, and a two-chapter wave that removes nothing from its results while
one chapter remains. -/
theorem autoJson_soft_deadline_check :
    softDeadlineContinues true [⟨"a", "a"⟩] = true
    ∧ softDeadlineContinues true [] = false
    ∧ (∀ f c p,
        (autoJsonLoop (fun ch => ([], ch.tail)) f c p).finishedAll = true →
        (autoJsonLoop (fun ch => ([], ch.tail)) f c p).remaining = [])
    ∧ autoJsonLoop (fun ch => ([], ch.tail)) 2 [⟨"a", "a"⟩, ⟨"b", "b"⟩] 0
      = autoJsonLoop (fun ch => ([], ch.tail)) 1
          ((fun (ch : List Chapter) => (([] : List Unit), ch.tail))
            [⟨"a", "a"⟩, ⟨"b", "b"⟩]).2 1 :=
  autoJson_soft_deadline [⟨"a", "a"⟩] [⟨"a", "a"⟩, ⟨"b", "b"⟩]
    (fun ch => ([], ch.tail)) 1 0 (by decide) (by decide) rfl (by decide)

/-- Claim C10: the `/get` rehost keys its persistent lookup by the basename of
the URL path only — once a URL has been rehosted, a `/get` request for any
distinct URL whose path ends in the same filename returns the CDN URL stored
for the first, performing no fetch or upload. -/
theorem get_rehost_keyed_by_basename (db : ThumbDB) (u1 u2 : JsURL)
    (cdn1 cdn2 : String)
    (hsame : basename u1.pathname = basename u2.pathname)
    (hdistinct : u1.href ≠ u2.href)
    (hmiss : dbLookup db (basename u1.pathname) = none) :
    (getRoute db u1 cdn1).2.2 = true
    ∧ getRoute (getRoute db u1 cdn1).1 u2 cdn2
      = ((getRoute db u1 cdn1).1, ⟨cdn1⟩, false) := by
  have h1 : getRoute db u1 cdn1
      = (dbUpsert db (basename u1.pathname) ⟨u1.href, cdn1⟩, ⟨cdn1⟩, true) := by
    simp only [getRoute, hmiss]
  refine ⟨by rw [h1], ?_⟩
  rw [h1]
  show getRoute (dbUpsert db (basename u1.pathname) ⟨u1.href, cdn1⟩) u2 cdn2
      = (dbUpsert db (basename u1.pathname) ⟨u1.href, cdn1⟩, ⟨cdn1⟩, false)
  simp only [getRoute, ← hsame, dbLookup_dbUpsert_self]

/-- Witness for C10: two distinct URLs on different hosts and directories
sharing the filename `45673.jpg`. -/
theorem get_rehost_keyed_by_basename_check :
    (getRoute [] ⟨"https://a.com/x/45673.jpg", "/x/45673.jpg"⟩
        "https://cdn/IMAGES/45673.jpg").2.2 = true
    ∧ getRoute
        (getRoute [] ⟨"https://a.com/x/45673.jpg", "/x/45673.jpg"⟩
          "https://cdn/IMAGES/45673.jpg").1
        ⟨"https://b.net/y/45673.jpg", "/y/45673.jpg"⟩ "https://cdn/other.jpg"
      = ((getRoute [] ⟨"https://a.com/x/45673.jpg", "/x/45673.jpg"⟩
          "https://cdn/IMAGES/45673.jpg").1,
         ⟨"https://cdn/IMAGES/45673.jpg"⟩, false) :=
  get_rehost_keyed_by_basename [] ⟨"https://a.com/x/45673.jpg", "/x/45673.jpg"⟩
    ⟨"https://b.net/y/45673.jpg", "/y/45673.jpg"⟩ "https://cdn/IMAGES/45673.jpg"
    "https://cdn/other.jpg" (by decide) (by decide) rfl
